import Mathlib

/-!
Verification of the change-detection and release-reconciliation core of a
chart-publishing action (src/index.js), shallowly embedded in Lean 4.

Modelling conventions:
- A parsed manifest is a pair of declared name and version (`Manifest`).
- A change record `{chart, version}` pushed by the extractor is `ChangeRecord`.
- `loadChart` (yaml.load over a file) is a function `String → Except String Manifest`;
  a thrown parse error is the `Except.error` case.
- The tag oracle `git.hasTag` is a total `String → Bool` (its errors propagate
  and are fatal, so the failure-free runs modelled here take it total).
- The release-platform query (`octokit.request GET .../releases/tags/{tag}`) is
  `String → Except String Unit`; `releaseExists` catches any error, as the
  try/catch in the source does.
- Side effects of the orchestrator (`main`) are reified as a trace of `Effect`
  values together with a success flag; `core.setFailed` / a rejected promise
  yields the flag `false`.
- JavaScript string semantics followed where they matter: `path.split('/')` is
  `jsSplit '/'` over the character list (structural recursion, so proofs can
  evaluate it), `relPath.join` with the empty separator is `List.flatten`, `path.startsWith(p)` is
  `List.isPrefixOf p.data path.data` (JS startsWith is a plain string-prefix
  test), and a template literal interpolating `undefined` produces the string
  "undefined".
-/

/-- JavaScript `s.split(sep)` for a one-character separator, over the character
list: `""` splits to `[""]`, and every occurrence of `sep` starts a new
segment. -/
def jsSplit (sep : Char) : List Char → List (List Char)
  | [] => [[]]
  | c :: rest =>
    if c = sep then [] :: jsSplit sep rest
    else
      match jsSplit sep rest with
      | [] => [[c]]
      | seg :: segs => (c :: seg) :: segs

/-- The name/version pair parsed out of a package manifest (Chart.yaml). -/
structure Manifest where
  name : String
  version : String
deriving DecidableEq, Repr

/-- One changed releasable unit, as pushed by `getChangedCharts`:
`{ chart: name, version }` with both fields taken from the manifest. -/
structure ChangeRecord where
  chart : String
  version : String
deriving DecidableEq, Repr

/-- The canonical tag string, computed as the template literal
`"${change.chart}-${change.version}"` everywhere in the source. -/
def versionTag (c : ChangeRecord) : String :=
  c.chart ++ "-" ++ c.version

/-- The body of the `reduce` in `getChangedCharts`, one changed path at a time.
`path.startsWith(chart_dir)`, then `const [_, chart, ...relPath] = path.split('/')`
(so `relPath` is the split list with its first two entries dropped), then
`relPath.join` with the empty separator compared to the manifest filename; on a match, `loadChart` runs on
`${work_dir}/${path}` and `{ chart: name, version }` is pushed. A thrown load
error propagates out of the whole reduce. -/
def getChangedChartsGo (chartDir workDir : String)
    (loadChart : String → Except String Manifest)
    (acc : List ChangeRecord) : List String → Except String (List ChangeRecord)
  | [] => Except.ok acc
  | path :: rest =>
    if chartDir.data.isPrefixOf path.data then
      if List.flatten ((jsSplit '/' path.data).drop 2) = "Chart.yaml".data then
        match loadChart (workDir ++ "/" ++ path) with
        | Except.error e => Except.error e
        | Except.ok m =>
          getChangedChartsGo chartDir workDir loadChart
            (acc ++ [{ chart := m.name, version := m.version }]) rest
      else getChangedChartsGo chartDir workDir loadChart acc rest
    else getChangedChartsGo chartDir workDir loadChart acc rest

/-- Function `getChangedCharts`: reduce over the latest changed paths starting from `[]`. -/
def getChangedCharts (chartDir workDir : String)
    (loadChart : String → Except String Manifest)
    (changedPaths : List String) : Except String (List ChangeRecord) :=
  getChangedChartsGo chartDir workDir loadChart [] changedPaths

/-- Function `getNeededTags`: keep each change whose tag `git.hasTag` does not report. -/
def getNeededTags (hasTag : String → Bool) : List ChangeRecord → List ChangeRecord
  | [] => []
  | change :: rest =>
    if hasTag (versionTag change) then getNeededTags hasTag rest
    else change :: getNeededTags hasTag rest

/-- Function `releaseExists`: the release query wrapped in try/catch — any thrown error
at all returns `false`, success returns `true`. -/
def releaseExists (request : String → Except String Unit) (tag : String) : Bool :=
  match request tag with
  | Except.error _ => false
  | Except.ok _ => true

/-- Function `getNeededBuilds`: keep each change whose release `releaseExists` does not report. -/
def getNeededBuilds (request : String → Except String Unit) :
    List ChangeRecord → List ChangeRecord
  | [] => []
  | change :: rest =>
    if releaseExists request (versionTag change) then getNeededBuilds request rest
    else change :: getNeededBuilds request rest

/-- Function `createTags`: the sequence of tag names passed to `git.createTag`, in order. -/
def createTags (tags : List ChangeRecord) : List String :=
  tags.map versionTag

/-- Function `packageCharts`: the sequence of directory arguments passed to
`cr package`, namely `${chart_dir}/${change.chart}` per needed build. -/
def packageCharts (chartDir : String) (changes : List ChangeRecord) : List String :=
  changes.map (fun change => chartDir ++ "/" ++ change.chart)

/-- One observable action of the orchestrator. -/
inductive Effect where
  | fetchTools
  | rmRF (path : String)
  | mkdirP (path : String)
  | info (msg : String)
  | setFailed (msg : String)
  | createTag (tag : String)
  | packageChart (path : String)
  | publish
  | updateIndex
deriving DecidableEq, Repr

/-- Function `skipIfDryRun`: run the wrapped effects unless the dry-run flag is set, in
which case only `core.info` of "Skipping due to dry_run" happens. -/
def skipIfDryRun (dryRun : Bool) (effects : List Effect) : List Effect :=
  if !dryRun then effects else [Effect.info "Skipping due to dry_run"]

/-- The unconditional opening of `main`: `fetchTools()` then removal and
recreation of `.cr-release-packages` and `.cr-index` under the workspace. -/
def prepEffects (workDir : String) : List Effect :=
  [Effect.fetchTools,
   Effect.rmRF (workDir ++ "/.cr-release-packages"),
   Effect.mkdirP (workDir ++ "/.cr-release-packages"),
   Effect.rmRF (workDir ++ "/.cr-index"),
   Effect.mkdirP (workDir ++ "/.cr-index")]

/-- The effect trace and success flag of one `main()` call: prepare, extract,
reconcile, then the tag block (guarded by `neededTags.length`) and the
package/publish/index block (guarded by `neededBuilds.length`), each mutating
call site wrapped in `skipIfDryRun`. An error thrown by the extractor rejects
`main` after the prepare effects, giving the flag `false`. -/
def mainTrace (dryRun : Bool) (chartDir workDir : String)
    (loadChart : String → Except String Manifest)
    (hasTag : String → Bool) (request : String → Except String Unit)
    (changedPaths : List String) : List Effect × Bool :=
  match getChangedCharts chartDir workDir loadChart changedPaths with
  | Except.error _ => (prepEffects workDir, false)
  | Except.ok changes =>
    let neededTags := getNeededTags hasTag changes
    let neededBuilds := getNeededBuilds request changes
    let tagPart :=
      if neededTags.length ≠ 0 then
        Effect.info ("Creating tags: " ++
            String.intercalate ", " (neededTags.map versionTag))
          :: skipIfDryRun dryRun ((createTags neededTags).map Effect.createTag)
      else [Effect.info "No tags to create"]
    let buildPart :=
      if neededBuilds.length ≠ 0 then
        Effect.info ("Packaging charts: " ++
            String.intercalate ", " (neededBuilds.map versionTag))
          :: skipIfDryRun dryRun
              ((packageCharts chartDir neededBuilds).map Effect.packageChart)
          ++ Effect.info ("Publishing charts: " ++
              String.intercalate ", " (neededBuilds.map versionTag))
          :: skipIfDryRun dryRun [Effect.publish]
          ++ Effect.info "Generating chart repo index"
          :: skipIfDryRun dryRun [Effect.updateIndex]
      else [Effect.info "Nothing to build"]
    (prepEffects workDir ++ tagPart ++ buildPart, true)

/-- The whole action run, including the module-level workspace check. When
`GITHUB_WORKSPACE` is absent the source calls `core.setFailed` (marking the run
failed) but does not halt, so `main()` still executes; template literals then
interpolate `undefined` as the string "undefined". -/
def runAction (workDirOpt : Option String) (dryRun : Bool) (chartDir : String)
    (loadChart : String → Except String Manifest)
    (hasTag : String → Bool) (request : String → Except String Unit)
    (changedPaths : List String) : List Effect × Bool :=
  let workDir := workDirOpt.getD "undefined"
  let configFail : List Effect :=
    if workDirOpt.isNone then [Effect.setFailed "Unable to locate workspace!"] else []
  let result := mainTrace dryRun chartDir workDir loadChart hasTag request changedPaths
  (configFail ++ result.1, result.2 && workDirOpt.isSome)

/-- The effects the spec calls mutating: tag creation, packaging, publishing,
index regeneration. Directory preparation and logging are not mutating steps. -/
def isMutating : Effect → Bool
  | Effect.createTag _ => true
  | Effect.packageChart _ => true
  | Effect.publish => true
  | Effect.updateIndex => true
  | _ => false

/-- The condition under which `getChangedCharts` reaches its `loadChart` call
on a path: the JS string-prefix test against the root directory, and the
separator-free concatenation of the split segments after the first two being
exactly the manifest filename. -/
def chartPathMatch (chartDir path : String) : Bool :=
  chartDir.data.isPrefixOf path.data &&
  (List.flatten ((jsSplit '/' path.data).drop 2) == "Chart.yaml".data)

lemma getNeededTags_eq_filter (hasTag : String → Bool) (changes : List ChangeRecord) :
    getNeededTags hasTag changes = changes.filter (fun c => !hasTag (versionTag c)) := by
  induction changes with
  | nil => rfl
  | cons c rest ih =>
    cases h : hasTag (versionTag c) <;>
      simp [getNeededTags, List.filter_cons, h, ih]

lemma getNeededBuilds_eq_filter (request : String → Except String Unit)
    (changes : List ChangeRecord) :
    getNeededBuilds request changes =
      changes.filter (fun c => !releaseExists request (versionTag c)) := by
  induction changes with
  | nil => rfl
  | cons c rest ih =>
    cases h : releaseExists request (versionTag c) <;>
      simp [getNeededBuilds, List.filter_cons, h, ih]

lemma getChangedChartsGo_ok (chartDir workDir : String) (reader : String → Manifest)
    (acc : List ChangeRecord) (paths : List String) :
    getChangedChartsGo chartDir workDir (fun p => Except.ok (reader p)) acc paths =
      Except.ok (acc ++ (paths.filter (chartPathMatch chartDir)).map
        (fun p => { chart := (reader (workDir ++ "/" ++ p)).name,
                    version := (reader (workDir ++ "/" ++ p)).version })) := by
  induction paths generalizing acc with
  | nil => simp [getChangedChartsGo]
  | cons p rest ih =>
    by_cases h1 : chartDir.data.isPrefixOf p.data
    · by_cases h2 : List.flatten ((jsSplit '/' p.data).drop 2) = "Chart.yaml".data
      · have hm : chartPathMatch chartDir p = true := by
          simp [chartPathMatch, h1, h2]
        simp [getChangedChartsGo, h1, h2, ih, List.filter_cons, hm]
      · have hm : chartPathMatch chartDir p = false := by
          simp [chartPathMatch, h2]
        simp [getChangedChartsGo, h1, h2, ih, List.filter_cons, hm]
    · have hm : chartPathMatch chartDir p = false := by
        simp [chartPathMatch, h1]
      simp [getChangedChartsGo, h1, ih, List.filter_cons, hm]

lemma getChangedChartsGo_skip (chartDir workDir : String)
    (loadChart : String → Except String Manifest)
    (paths : List String)
    (h : ∀ p ∈ paths, chartDir.data.isPrefixOf p.data = false) :
    ∀ acc, getChangedChartsGo chartDir workDir loadChart acc paths = Except.ok acc := by
  induction paths with
  | nil => intro acc; rfl
  | cons p rest ih =>
    intro acc
    have h1 : chartDir.data.isPrefixOf p.data = false := h p (List.mem_cons_self p rest)
    have hrest : ∀ q ∈ rest, chartDir.data.isPrefixOf q.data = false :=
      fun q hq => h q (List.mem_cons_of_mem p hq)
    simp [getChangedChartsGo, h1, ih hrest acc]

lemma getChangedChartsGo_error (chartDir workDir : String)
    (loadChart : String → Except String Manifest)
    (paths : List String) (p : String) (e : String)
    (hmem : p ∈ paths)
    (hmatch : chartPathMatch chartDir p = true)
    (herr : loadChart (workDir ++ "/" ++ p) = Except.error e) :
    ∀ acc, ∃ e2, getChangedChartsGo chartDir workDir loadChart acc paths = Except.error e2 := by
  unfold chartPathMatch at hmatch
  rw [Bool.and_eq_true] at hmatch
  have h1 : chartDir.data.isPrefixOf p.data = true := hmatch.1
  have h2 : List.flatten ((jsSplit '/' p.data).drop 2) = "Chart.yaml".data :=
    eq_of_beq hmatch.2
  induction paths with
  | nil => simp at hmem
  | cons q rest ih =>
    intro acc
    rcases List.mem_cons.mp hmem with hq | hq
    · subst hq
      exact ⟨e, by simp [getChangedChartsGo, h1, h2, herr]⟩
    · by_cases hq1 : chartDir.data.isPrefixOf q.data
      · by_cases hq2 : List.flatten ((jsSplit '/' q.data).drop 2) = "Chart.yaml".data
        · cases hload : loadChart (workDir ++ "/" ++ q) with
          | error e3 => exact ⟨e3, by simp [getChangedChartsGo, hq1, hq2, hload]⟩
          | ok m =>
            obtain ⟨e2, he2⟩ :=
              ih hq (acc ++ [{ chart := m.name, version := m.version }])
            exact ⟨e2, by simp [getChangedChartsGo, hq1, hq2, hload, he2]⟩
        · obtain ⟨e2, he2⟩ := ih hq acc
          exact ⟨e2, by simp [getChangedChartsGo, hq1, hq2, he2]⟩
      · obtain ⟨e2, he2⟩ := ih hq acc
        exact ⟨e2, by simp [getChangedChartsGo, hq1, he2]⟩

/-- C2: tag reconciliation is a pure, order-preserving filter — `getNeededTags`
returns exactly the records whose tag the oracle reports absent, in input
order; and on the record `{chart := "foo", version := "1.2.0"}` with the tag
oracle reporting `"foo-1.2.0"` present but the release query failing,
`getNeededTags` excludes the record while `getNeededBuilds` includes it, so
the two reconcilers can disagree on one record. -/
theorem neededTags_order_preserving_filter :
    (∀ (hasTag : String → Bool) (changes : List ChangeRecord),
      getNeededTags hasTag changes =
        changes.filter (fun c => !hasTag (versionTag c))) ∧
    getNeededTags (fun t => t == "foo-1.2.0")
      [{ chart := "foo", version := "1.2.0" }] = [] ∧
    getNeededBuilds (fun _ => Except.error "not found")
      [{ chart := "foo", version := "1.2.0" }] =
      [{ chart := "foo", version := "1.2.0" }] :=
  ⟨getNeededTags_eq_filter, rfl, rfl⟩

/-- C3: a release-existence query that raises any error is treated as
"release absent" — `releaseExists` returns `false` and the record is included
in the `getNeededBuilds` output, so the next run reattempts the release; the
error does not propagate out of `releaseExists`. -/
theorem releaseError_treated_absent
    (request : String → Except String Unit) (changes : List ChangeRecord)
    (c : ChangeRecord) (e : String)
    (hmem : c ∈ changes) (herr : request (versionTag c) = Except.error e) :
    releaseExists request (versionTag c) = false ∧ c ∈ getNeededBuilds request changes := by
  have hre : releaseExists request (versionTag c) = false := by
    simp [releaseExists, herr]
  refine ⟨hre, ?_⟩
  rw [getNeededBuilds_eq_filter]
  exact List.mem_filter.mpr ⟨hmem, by simp [hre]⟩

theorem releaseError_treated_absent_witness :
    releaseExists (fun _ => Except.error "boom")
      (versionTag { chart := "foo", version := "1.0.0" }) = false ∧
    ({ chart := "foo", version := "1.0.0" } : ChangeRecord) ∈
      getNeededBuilds (fun _ => Except.error "boom")
        [{ chart := "foo", version := "1.0.0" }] :=
  releaseError_treated_absent (fun _ => Except.error "boom") _ _ "boom"
    (List.mem_singleton.mpr rfl) rfl

/-- C4 counterexample: the changed path "charts/foo/Chart./yaml" is a nested
file whose relative segments after the package directory are ["Chart.", "yaml"],
not the single segment "Chart.yaml", yet the extractor emits a ChangeRecord for
it, because the source compares the separator-free concatenation
`relPath.join` with the empty separator against the manifest filename. -/
theorem nested_path_emits_record :
    getChangedCharts "charts" "/w"
        (fun _ => Except.ok { name := "foo", version := "1.0.0" })
        ["charts/foo/Chart./yaml"]
      = Except.ok [{ chart := "foo", version := "1.0.0" }] ∧
    (jsSplit '/' "charts/foo/Chart./yaml".data).drop 2 ≠ ["Chart.yaml".data] := by
  constructor
  · rfl
  · decide

/-- C4 amended: the extractor emits a ChangeRecord for a changed path exactly
when the path string starts with the root directory string and the
concatenation, without separators, of the split segments after the first two
equals "Chart.yaml" (`chartPathMatch`); this admits nested paths whose joined
segments happen to spell the manifest filename. When a record is emitted, its
package and version come from the parsed manifest contents at that path, not
from the directory name. -/
theorem extractor_emits_iff_joined_match
    (chartDir workDir : String) (reader : String → Manifest) (paths : List String) :
    getChangedCharts chartDir workDir (fun p => Except.ok (reader p)) paths =
      Except.ok ((paths.filter (chartPathMatch chartDir)).map
        (fun p => { chart := (reader (workDir ++ "/" ++ p)).name,
                    version := (reader (workDir ++ "/" ++ p)).version })) := by
  simpa using getChangedChartsGo_ok chartDir workDir reader [] paths

/-- C5 counterexample: the changed path "chartsX/foo/Chart.yaml" is not under
the root directory "charts" as a path component — its first segment is
"chartsX" — yet the extractor emits a ChangeRecord for it, because the source
tests only `path.startsWith(chart_dir)`, a plain string-prefix check. -/
theorem outside_root_emits_record :
    getChangedCharts "charts" "/w"
        (fun _ => Except.ok { name := "foo", version := "1.0.0" })
        ["chartsX/foo/Chart.yaml"]
      = Except.ok [{ chart := "foo", version := "1.0.0" }] ∧
    (jsSplit '/' "chartsX/foo/Chart.yaml".data).headD [] ≠ "charts".data := by
  constructor
  · rfl
  · decide

/-- C5 amended: the scope test of the extractor is a plain string-prefix check
against the root directory: every changed path whose string does not start
with the rootDir string yields no ChangeRecord (the whole extraction returns
the empty list when no path starts with it), while a path merely sharing the
string prefix, such as "chartsX/foo/Chart.yaml" under root "charts", is
considered and can emit a record. -/
theorem extractor_scope_is_string_start
    (chartDir workDir : String) (loadChart : String → Except String Manifest)
    (paths : List String)
    (h : ∀ p ∈ paths, chartDir.data.isPrefixOf p.data = false) :
    getChangedCharts chartDir workDir loadChart paths = Except.ok [] :=
  getChangedChartsGo_skip chartDir workDir loadChart paths h []

theorem extractor_scope_is_string_start_witness :
    getChangedCharts "charts" "/w"
        (fun _ => Except.ok { name := "n", version := "v" })
        ["other/foo/Chart.yaml", "README.md"]
      = Except.ok [] :=
  extractor_scope_is_string_start "charts" "/w" _ _ (by decide)

/-- C9: `packageCharts` builds each packaging invocation path as
`chartDir ++ "/" ++ chart` from the manifest-declared chart name of the needed
build; concretely, a manifest declaring name "realname" inside directory
"dirname" yields a record with chart "realname" and a packaging path
"charts/realname", not "charts/dirname". -/
theorem package_path_uses_manifest_name
    (chartDir : String) (request : String → Except String Unit)
    (changes : List ChangeRecord) :
    packageCharts chartDir (getNeededBuilds request changes) =
      (getNeededBuilds request changes).map (fun c => chartDir ++ "/" ++ c.chart) ∧
    getChangedCharts "charts" "/w"
        (fun _ => Except.ok { name := "realname", version := "1.0.0" })
        ["charts/dirname/Chart.yaml"]
      = Except.ok [{ chart := "realname", version := "1.0.0" }] ∧
    packageCharts "charts" [{ chart := "realname", version := "1.0.0" }]
      = ["charts/realname"] :=
  ⟨rfl, rfl, rfl⟩

/-- C10: the record-to-tag mapping is not injective — the distinct records
{chart := "foo", version := "1-0.0"} and {chart := "foo-1", version := "0.0"}
produce the identical VersionTag string "foo-1-0.0", and `getNeededTags`,
`getNeededBuilds` and `createTags` all act on that shared string, keeping or
dropping either record under exactly the same oracle answers. -/
theorem versionTag_collision_indistinguishable :
    ({ chart := "foo", version := "1-0.0" } : ChangeRecord) ≠
      { chart := "foo-1", version := "0.0" } ∧
    versionTag { chart := "foo", version := "1-0.0" } =
      versionTag { chart := "foo-1", version := "0.0" } ∧
    (∀ hasTag : String → Bool,
      (getNeededTags hasTag [{ chart := "foo", version := "1-0.0" }]).length =
      (getNeededTags hasTag [{ chart := "foo-1", version := "0.0" }]).length) ∧
    (∀ request : String → Except String Unit,
      (getNeededBuilds request [{ chart := "foo", version := "1-0.0" }]).length =
      (getNeededBuilds request [{ chart := "foo-1", version := "0.0" }]).length) ∧
    createTags [{ chart := "foo", version := "1-0.0" }] =
      createTags [{ chart := "foo-1", version := "0.0" }] := by
  have e1 : versionTag { chart := "foo", version := "1-0.0" } = "foo-1-0.0" := rfl
  have e2 : versionTag { chart := "foo-1", version := "0.0" } = "foo-1-0.0" := rfl
  refine ⟨by decide, rfl, ?_, ?_, rfl⟩
  · intro hasTag
    simp only [getNeededTags, e1, e2]
    cases hht : hasTag "foo-1-0.0" <;> simp [hht]
  · intro request
    simp only [getNeededBuilds, e1, e2]
    cases hre : releaseExists request "foo-1-0.0" <;> simp [hre]

/-- C1: idempotence of the full pipeline — after a failure-free run every
needed tag is created (for any starting tag oracle, the VersionTag of each change
is either already reported or among the tags `createTags` passes to the tag
creator), and on a second run whose oracles report every VersionTag of the
change set as existing, `getNeededTags` and `getNeededBuilds` both return the
empty list, so the trace of the second run contains no tag creation, packaging,
publish or index invocation. -/
theorem pipeline_idempotent
    (chartDir workDir : String) (loadChart : String → Except String Manifest)
    (hasTag : String → Bool) (request : String → Except String Unit)
    (changedPaths : List String) (changes : List ChangeRecord)
    (hextract : getChangedCharts chartDir workDir loadChart changedPaths = Except.ok changes)
    (htags : ∀ c ∈ changes, hasTag (versionTag c) = true)
    (hrels : ∀ c ∈ changes, releaseExists request (versionTag c) = true) :
    getNeededTags hasTag changes = [] ∧
    getNeededBuilds request changes = [] ∧
    (mainTrace false chartDir workDir loadChart hasTag request changedPaths).1.filter
      isMutating = [] ∧
    (∀ hasTag0 : String → Bool, ∀ c ∈ changes,
      hasTag0 (versionTag c) = true ∨
      versionTag c ∈ createTags (getNeededTags hasTag0 changes)) := by
  have h1 : getNeededTags hasTag changes = [] := by
    rw [getNeededTags_eq_filter]
    apply List.filter_eq_nil_iff.mpr
    intro c hc
    simp [htags c hc]
  have h2 : getNeededBuilds request changes = [] := by
    rw [getNeededBuilds_eq_filter]
    apply List.filter_eq_nil_iff.mpr
    intro c hc
    simp [hrels c hc]
  refine ⟨h1, h2, ?_, ?_⟩
  · simp only [mainTrace, hextract]
    simp [h1, h2, prepEffects, isMutating, skipIfDryRun]
  · intro hasTag0 c hc
    by_cases h : hasTag0 (versionTag c) = true
    · exact Or.inl h
    · refine Or.inr ?_
      have hmem : c ∈ getNeededTags hasTag0 changes := by
        rw [getNeededTags_eq_filter]
        exact List.mem_filter.mpr ⟨hc, by simp [Bool.eq_false_iff.mpr h]⟩
      simpa [createTags] using List.mem_map_of_mem versionTag hmem

theorem pipeline_idempotent_witness :
    getNeededTags (fun _ => true) [{ chart := "foo", version := "1.2.0" }] = [] ∧
    getNeededBuilds (fun _ => Except.ok ()) [{ chart := "foo", version := "1.2.0" }] = [] ∧
    (mainTrace false "charts" "/w" (fun _ => Except.ok { name := "foo", version := "1.2.0" })
        (fun _ => true) (fun _ => Except.ok ()) ["charts/foo/Chart.yaml"]).1.filter
      isMutating = [] ∧
    (∀ hasTag0 : String → Bool, ∀ c ∈ [{ chart := "foo", version := "1.2.0" } ],
      hasTag0 (versionTag c) = true ∨
      versionTag c ∈ createTags (getNeededTags hasTag0
        [{ chart := "foo", version := "1.2.0" }])) :=
  pipeline_idempotent "charts" "/w" _ _ _ _ _ rfl
    (fun _ _ => rfl) (fun _ _ => rfl)

/-- C6: dry-run gating — with the dry-run flag set and both reconciler outputs
non-empty, the trace of the run contains no tag creation, packaging, publish or
index invocation; it still opens with the unconditional prepare effects
(tool fetch, clearing and recreating both working directories), still logs the
intended tag and packaging actions, and the run succeeds. -/
theorem dry_run_performs_no_mutations
    (chartDir workDir : String) (loadChart : String → Except String Manifest)
    (hasTag : String → Bool) (request : String → Except String Unit)
    (changedPaths : List String) (changes : List ChangeRecord)
    (hextract : getChangedCharts chartDir workDir loadChart changedPaths = Except.ok changes)
    (hnt : getNeededTags hasTag changes ≠ [])
    (hnb : getNeededBuilds request changes ≠ []) :
    (mainTrace true chartDir workDir loadChart hasTag request changedPaths).1.filter
      isMutating = [] ∧
    (mainTrace true chartDir workDir loadChart hasTag request changedPaths).1.take 5 =
      prepEffects workDir ∧
    (mainTrace true chartDir workDir loadChart hasTag request changedPaths).2 = true ∧
    Effect.info ("Creating tags: " ++
        String.intercalate ", " ((getNeededTags hasTag changes).map versionTag)) ∈
      (mainTrace true chartDir workDir loadChart hasTag request changedPaths).1 ∧
    Effect.info ("Packaging charts: " ++
        String.intercalate ", " ((getNeededBuilds request changes).map versionTag)) ∈
      (mainTrace true chartDir workDir loadChart hasTag request changedPaths).1 := by
  have hlt : (getNeededTags hasTag changes).length ≠ 0 := by
    simpa [List.length_eq_zero] using hnt
  have hlb : (getNeededBuilds request changes).length ≠ 0 := by
    simpa [List.length_eq_zero] using hnb
  simp only [mainTrace, hextract]
  simp [hlt, hlb, skipIfDryRun, prepEffects, isMutating, List.take]

theorem dry_run_performs_no_mutations_witness :
    (mainTrace true "charts" "/w" (fun _ => Except.ok { name := "foo", version := "1.2.0" })
        (fun _ => false) (fun _ => Except.error "nf") ["charts/foo/Chart.yaml"]).1.filter
      isMutating = [] ∧
    (mainTrace true "charts" "/w" (fun _ => Except.ok { name := "foo", version := "1.2.0" })
        (fun _ => false) (fun _ => Except.error "nf") ["charts/foo/Chart.yaml"]).1.take 5 =
      prepEffects "/w" ∧
    (mainTrace true "charts" "/w" (fun _ => Except.ok { name := "foo", version := "1.2.0" })
        (fun _ => false) (fun _ => Except.error "nf") ["charts/foo/Chart.yaml"]).2 = true ∧
    Effect.info ("Creating tags: " ++
        String.intercalate ", " ((getNeededTags (fun _ => false)
          [{ chart := "foo", version := "1.2.0" }]).map versionTag)) ∈
      (mainTrace true "charts" "/w" (fun _ => Except.ok { name := "foo", version := "1.2.0" })
        (fun _ => false) (fun _ => Except.error "nf") ["charts/foo/Chart.yaml"]).1 ∧
    Effect.info ("Packaging charts: " ++
        String.intercalate ", " ((getNeededBuilds (fun _ => Except.error "nf")
          [{ chart := "foo", version := "1.2.0" }]).map versionTag)) ∈
      (mainTrace true "charts" "/w" (fun _ => Except.ok { name := "foo", version := "1.2.0" })
        (fun _ => false) (fun _ => Except.error "nf") ["charts/foo/Chart.yaml"]).1 :=
  dry_run_performs_no_mutations "charts" "/w" _ _ _ _
    [{ chart := "foo", version := "1.2.0" }] rfl (by decide) (by decide)

/-- C7: a malformed manifest at a path that passes the filter of the extractor is
fatal — the extractor returns an error, and `main` rejects: its success flag
is false and its trace stops at the prepare effects, so no reconciliation, tag
creation, packaging, publish or index step executes. -/
theorem malformed_manifest_fatal
    (chartDir workDir : String) (loadChart : String → Except String Manifest)
    (hasTag : String → Bool) (request : String → Except String Unit)
    (changedPaths : List String) (p e : String)
    (hmem : p ∈ changedPaths)
    (hmatch : chartPathMatch chartDir p = true)
    (herr : loadChart (workDir ++ "/" ++ p) = Except.error e) :
    (∃ e2, getChangedCharts chartDir workDir loadChart changedPaths = Except.error e2) ∧
    ∀ dryRun,
      (mainTrace dryRun chartDir workDir loadChart hasTag request changedPaths).2 = false ∧
      (mainTrace dryRun chartDir workDir loadChart hasTag request changedPaths).1 =
        prepEffects workDir := by
  obtain ⟨e2, he2⟩ :=
    getChangedChartsGo_error chartDir workDir loadChart changedPaths p e hmem hmatch herr []
  have hex : getChangedCharts chartDir workDir loadChart changedPaths = Except.error e2 := he2
  refine ⟨⟨e2, hex⟩, ?_⟩
  intro dryRun
  constructor <;> simp [mainTrace, hex]

theorem malformed_manifest_fatal_witness :
    (∃ e2, getChangedCharts "charts" "/w" (fun _ => Except.error "bad yaml")
        ["charts/foo/Chart.yaml"] = Except.error e2) ∧
    ∀ dryRun,
      (mainTrace dryRun "charts" "/w" (fun _ => Except.error "bad yaml")
        (fun _ => false) (fun _ => Except.error "nf") ["charts/foo/Chart.yaml"]).2 = false ∧
      (mainTrace dryRun "charts" "/w" (fun _ => Except.error "bad yaml")
        (fun _ => false) (fun _ => Except.error "nf") ["charts/foo/Chart.yaml"]).1 =
        prepEffects "/w" :=
  malformed_manifest_fatal "charts" "/w" _ _ _ _ "charts/foo/Chart.yaml" "bad yaml"
    (List.mem_singleton.mpr rfl) (by decide) rfl

/-- C8 divergence witness: with the workspace path absent, the source calls
`core.setFailed` (so the run is reported failed) but execution does not stop —
`main()` still runs, fetching tools, preparing directories under the literal
path "undefined", extracting, reconciling, and even creating tags and
publishing; the claimed "no pipeline work is performed" does not hold. -/
theorem missing_workspace_work_still_runs :
    (runAction none false "charts"
        (fun _ => Except.ok { name := "foo", version := "1.0.0" })
        (fun _ => false) (fun _ => Except.error "nf") ["charts/foo/Chart.yaml"]).2 = false ∧
    Effect.setFailed "Unable to locate workspace!" ∈
      (runAction none false "charts"
        (fun _ => Except.ok { name := "foo", version := "1.0.0" })
        (fun _ => false) (fun _ => Except.error "nf") ["charts/foo/Chart.yaml"]).1 ∧
    Effect.fetchTools ∈
      (runAction none false "charts"
        (fun _ => Except.ok { name := "foo", version := "1.0.0" })
        (fun _ => false) (fun _ => Except.error "nf") ["charts/foo/Chart.yaml"]).1 ∧
    Effect.rmRF "undefined/.cr-release-packages" ∈
      (runAction none false "charts"
        (fun _ => Except.ok { name := "foo", version := "1.0.0" })
        (fun _ => false) (fun _ => Except.error "nf") ["charts/foo/Chart.yaml"]).1 ∧
    Effect.createTag "foo-1.0.0" ∈
      (runAction none false "charts"
        (fun _ => Except.ok { name := "foo", version := "1.0.0" })
        (fun _ => false) (fun _ => Except.error "nf") ["charts/foo/Chart.yaml"]).1 ∧
    Effect.publish ∈
      (runAction none false "charts"
        (fun _ => Except.ok { name := "foo", version := "1.0.0" })
        (fun _ => false) (fun _ => Except.error "nf") ["charts/foo/Chart.yaml"]).1 := by
  decide
